import Mathlib

/-!
Shallow embedding of the streaming connection engine of `src/websocket/server.ts`
(stock-app-server).  Pure helpers are translated directly; the per-connection
controller is embedded as an explicit state machine whose events are the
transport callbacks (inbound message, fetch completion, timer firings,
close/error).  Randomness (`Math.random()` draws) and the clock (`Date.now()`)
are passed in as explicit parameters.  JS numbers are modelled as rationals.
-/

namespace StockApp

/-- A JavaScript value as far as the handlers inspect it: a finite number,
a non-finite number (`NaN`, `±Infinity` — `typeof` is `number` but
`Number.isFinite` is false), a string, `undefined` (absent field), or any
other value. -/
inductive JsValue where
  | num (q : ℚ)
  | nanVal
  | infVal
  | str (s : String)
  | undef
  | otherVal
deriving DecidableEq

/-- `String.prototype.trim` for ASCII inputs: strip leading and trailing
whitespace characters. -/
def jsTrim (s : String) : String :=
  ⟨((s.data.dropWhile Char.isWhitespace).reverse.dropWhile Char.isWhitespace).reverse⟩

/-- `String.prototype.toUpperCase` for ASCII inputs. -/
def jsToUpperCase (s : String) : String :=
  ⟨s.data.map Char.toUpper⟩

/-- `clampNumber`, server.ts lines 295-300: a non-number or non-finite value
falls back; a finite number is clamped as `Math.min(Math.max(value, min), max)`. -/
def clampNumber (value : JsValue) (lo hi fallback : ℚ) : ℚ :=
  match value with
  | .num q => min (max q lo) hi
  | _ => fallback

/-- The clamping rule as the spec words it (claim C4): a finite number is
clamped to the nearest bound of [lo, hi], anything else falls back. -/
def clampSpec (value : JsValue) (lo hi fallback : ℚ) : ℚ :=
  match value with
  | .num q => if q < lo then lo else if hi < q then hi else q
  | _ => fallback

/-- `randBetween`, server.ts lines 320-322, with the `Math.random()` draw
`r ∈ [0, 1)` made explicit: `r * (max - min) + min`. -/
def randBetween (r lo hi : ℚ) : ℚ :=
  r * (hi - lo) + lo

/-- `pickNextDelay`, server.ts lines 314-318, with the jitter factor
(`randBetween(0.9, 1.1)`) made explicit:
`Math.min(10000, Math.max(400, Math.round(base * jitter)))`.
`Math.round` is `round` on ℚ (half-up, also for negatives). -/
def pickNextDelay (base jitter : ℚ) : ℤ :=
  min 10000 (max 400 (round (base * jitter)))

/-- Per-connection spike state, server.ts lines 46-49. -/
structure SpikeState where
  inSpikeMode : Bool
  spikeEndTime : ℤ
deriving DecidableEq

/-- The spike-mode update at the head of `scheduleNext`, server.ts lines
120-128: expire a running spike whose end time has passed, then possibly
activate a new spike (`spikeDraw` models `Math.random() < CHAOS.SPIKE_CHANCE`)
lasting `SPIKE_DURATION_MS = 8000` from `now`. -/
def updateSpike (cs : SpikeState) (now : ℤ) (spikeDraw : Bool) : SpikeState :=
  let cs' := if cs.inSpikeMode && decide (cs.spikeEndTime ≤ now) then
    { cs with inSpikeMode := false } else cs
  if !cs'.inSpikeMode && spikeDraw then
    { inSpikeMode := true, spikeEndTime := now + 8000 }
  else cs'

/-- The base-interval selection of `scheduleNext`, server.ts line 131:
`CHAOS.SPIKE_INTERVAL_MS = 75` while in spike mode, else the subscription's
interval. -/
def baseInterval (cs : SpikeState) (intervalMs : ℚ) : ℚ :=
  if cs.inSpikeMode then 75 else intervalMs

/-- The delay until the next scheduled push, server.ts lines 120-132: update
spike mode, select the effective base interval, apply jitter and clamping. -/
def nextDelay (cs : SpikeState) (intervalMs : ℚ) (now : ℤ)
    (spikeDraw : Bool) (jitter : ℚ) : ℤ :=
  pickNextDelay (baseInterval (updateSpike cs now spikeDraw) intervalMs) jitter

/-- `isAllowedPath`, server.ts lines 309-312, with the pathname modelled as
its character list: strip one trailing `'/'` (unless the whole path is `"/"`),
then compare against the two allowed endpoints.
`pathname.endsWith('/')` is `getLast? == some '/'`; `pathname.slice(0, -1)`
is `dropLast`. -/
def isAllowedPath (pathname : List Char) : Bool :=
  let normalized := if pathname.getLast? == some '/' && pathname != ['/'] then
    pathname.dropLast else pathname
  normalized == "/ws".data || normalized == "/ws/quotes".data

/-- The acceptance rule as the spec words it (claim C6): the pathname, after
removal of at most one trailing slash, equals `/ws` or `/ws/quotes`. -/
def allowedPathSpec (pathname : List Char) : Prop :=
  pathname = "/ws".data ∨ pathname = "/ws/".data ∨
  pathname = "/ws/quotes".data ∨ pathname = "/ws/quotes/".data

instance (p : List Char) : Decidable (allowedPathSpec p) := by
  unfold allowedPathSpec; infer_instance

/-- A quote snapshot as `pushUpdate` reads it from `getStockDetail`
(`stock-detail.service.ts`): the fields `price` and `updatedAt` used at
server.ts lines 188-189. -/
structure StockDetail where
  price : ℚ
  updatedAt : ℤ
deriving DecidableEq

/-- A thrown fetch error as `handleError` inspects it, server.ts line 270:
either an `HttpError` (carrying `status` and `message`) or any other value. -/
inductive JsError where
  | httpError (status : ℤ) (message : String)
  | otherErr
deriving DecidableEq

/-- Outbound message shapes built by server.ts (each constructor names the
line of the `ws.send(JSON.stringify(...))` that produces it). -/
inductive OutMsg where
  /-- line 69: type ready, fixed message. -/
  | ready (message : String)
  /-- line 85: type pong with the current time. -/
  | pong (atTime : ℤ)
  /-- lines 78 and 111: type error with a message only. -/
  | errorMsg (message : String)
  /-- line 273 (handleError): type error with status and message. -/
  | errorStatus (status : ℤ) (message : String)
  /-- lines 184-192: a StockQuoteMessage. -/
  | quote (symbol : String) (price : ℚ) (timestamp : ℤ)
  /-- line 157: type serverReset, fixed reason. -/
  | serverReset (reason : String)
deriving DecidableEq

/-- `handleError`, server.ts lines 269-274: an `HttpError` keeps its status
and message, anything else becomes status 500 with a generic message.  The
returned message is sent unconditionally — no closed/readyState check
precedes the `ws.send` on line 273. -/
def handleError (error : JsError) : OutMsg :=
  match error with
  | .httpError s m => .errorStatus s m
  | .otherErr => .errorStatus 500 "Unexpected error while fetching stock detail"

/-- A serialized outbound payload as the chaos pipeline handles it: either
the intact serialization of a message, or the result of `corruptJson`
(server.ts lines 245-267) applied to it, tagged with the chosen corruption
branch (0-3).  The corrupted bytes themselves play no role in any claim,
only whether the payload was modified. -/
inductive WireMsg where
  | intact (m : OutMsg)
  | corrupted (m : OutMsg) (corruptionType : Fin 4)
deriving DecidableEq

/-- One performed write call, recording the extra timer delay (ms) that
deferred it: 0 for an immediate `ws.send`, the out-of-order delay for a send
deferred via `setTimeout` (server.ts line 236). -/
structure Send where
  delayMs : ℕ
  msg : WireMsg
deriving DecidableEq

/-- The random draws consumed by one `pushUpdateWithChaos` run, server.ts
lines 212-224: out-of-order delivery, corruption, duplication. -/
structure ChaosDraw where
  outOfOrder : Bool
  oooDelayMs : ℕ
  corrupt : Bool
  corruptType : Fin 4
  duplicate : Bool
  dupCount : ℕ
deriving DecidableEq

deriving instance DecidableEq for Except

/-- The full context of one chaos push attempt: the outcome of the awaited
`getStockDetail`, the chaos draws, and whether `ws.readyState === 1` holds
at the moment `sendMessage` runs (immediately, or after the out-of-order
delay) — the check on server.ts line 229, evaluated once since the
duplication loop is synchronous. -/
structure DeliverCtx where
  fetch : Except JsError StockDetail
  draw : ChaosDraw
  openAtDeliver : Bool
deriving DecidableEq

/-- `pushUpdate`, server.ts lines 181-196: the immediate (non-chaos) push.
On fetch success the payload is serialized and sent once, immediately, with
no chaos transform and no readyState check (line 192); on fetch failure
`handleError` sends its error message (line 194). -/
def pushUpdate (symbol : String) (fetch : Except JsError StockDetail) : List Send :=
  match fetch with
  | .ok d => [⟨0, .intact (.quote symbol d.price d.updatedAt)⟩]
  | .error e => [⟨0, .intact (handleError e)⟩]

/-- `pushUpdateWithChaos`, server.ts lines 198-243: the writes one chaos push
attempt performs.  On fetch success: the payload is corrupted with
probability `CORRUPT_CHANCE` (line 219), sent `dupCount` times if duplicated
(lines 222-232), each iteration guarded by `ws.readyState === 1` (line 229),
the whole `sendMessage` deferred by the out-of-order delay when drawn
(lines 235-239).  On fetch failure `handleError` sends unconditionally
(lines 240-242). -/
def pushUpdateWithChaos (symbol : String) (ctx : DeliverCtx) : List Send :=
  match ctx.fetch with
  | .ok d =>
      let payload := OutMsg.quote symbol d.price d.updatedAt
      let messageToSend := if ctx.draw.corrupt then
        WireMsg.corrupted payload ctx.draw.corruptType else WireMsg.intact payload
      let dupCount := if ctx.draw.duplicate then ctx.draw.dupCount else 1
      let delay := if ctx.draw.outOfOrder then ctx.draw.oooDelayMs else 0
      if ctx.openAtDeliver then List.replicate dupCount ⟨delay, messageToSend⟩ else []
  | .error e => [⟨0, .intact (handleError e)⟩]

/-- One member of a burst fan-out, server.ts lines 141-145: the `setTimeout`
callback at offset `i * BURST_DELAY_MS` first re-checks the `closed` flag
(line 143) and only then runs its own independent `pushUpdateWithChaos`. -/
def burstMemberSends (symbol : String) (closedAtCallback : Bool) (ctx : DeliverCtx) : List Send :=
  if closedAtCallback then [] else pushUpdateWithChaos symbol ctx

/-- The push attempts spawned by one fired update timer, server.ts lines
138-148: with probability `BURST_CHANCE` a fan-out of burst members, each
with its own closed-flag reading and chaos context; otherwise a single
chaos push. -/
def tickSends (symbol : String) (burstDraw : Bool)
    (members : List (Bool × DeliverCtx)) (single : DeliverCtx) : List Send :=
  if burstDraw then (members.map fun m => burstMemberSends symbol m.1 m.2).flatten
  else pushUpdateWithChaos symbol single

/-- An outbound transport action: a `ws.send` or a `ws.close(code, reason)`. -/
inductive Action where
  | send (m : OutMsg)
  | closeConn (code : ℕ) (reason : String)
deriving DecidableEq

/-- The state owned by one accepted connection, server.ts lines 64-67.
Timer handles are modelled as allocation-numbered ids:
`subTimer` is `subscription.timer` (the handle the code holds),
`liveUpdateTimers` is the set of update timers armed by `setTimeout` at line
134 that have neither fired nor been cancelled (so "pending"), and
`disconnectTimers` counts pending forced-close timers (line 155).
`pendingRestarts` lists the `restartStream` invocations currently suspended
at `await pushUpdate(ws, sub.symbol)` (line 114), each recording the symbol
that was passed to `pushUpdate` before the suspension.  Spike state and
timer durations do not affect timer ownership and are modelled separately
(`updateSpike`, `pickNextDelay`). -/
structure ConnState where
  closed : Bool
  symbol : String
  intervalMs : ℚ
  subTimer : Option ℕ
  liveUpdateTimers : List ℕ
  pendingRestarts : List String
  disconnectTimers : ℕ
  nextTimerId : ℕ
deriving DecidableEq

/-- `stopStream`, server.ts lines 288-293: `clearTimeout(subscription.timer)`
and drop the handle.  Clearing an already-fired or absent timer is a no-op
(`List.erase` of an absent id). -/
def stopStream (s : ConnState) : ConnState :=
  match s.subTimer with
  | some t => { s with subTimer := none, liveUpdateTimers := s.liveUpdateTimers.erase t }
  | none => s

/-- The timer-arming effect of `scheduleNext`, server.ts lines 134 and 149:
`sub.timer = setTimeout(..., nextDelay)` — a fresh pending timer is armed
and the subscription's handle is overwritten with it (the previous handle,
if it still named a pending timer, is NOT cleared). -/
def armUpdateTimer (s : ConnState) : ConnState :=
  { s with subTimer := some s.nextTimerId,
           liveUpdateTimers := s.liveUpdateTimers ++ [s.nextTimerId],
           nextTimerId := s.nextTimerId + 1 }

/-- `restartStream`, server.ts lines 108-117, up to its suspension point:
`stopStream(sub)`; an empty symbol answers with the error message and
returns (line 111); otherwise `pushUpdate(ws, sub.symbol)` is started and
the rest of `restartStream` (lines 115-116) becomes a pending continuation,
recording the symbol passed to `pushUpdate`. -/
def restartStreamStart (s : ConnState) : ConnState × List Action :=
  let s' := stopStream s
  if s'.symbol = "" then
    (s', [.send (.errorMsg "Symbol is required for subscription")])
  else
    ({ s' with pendingRestarts := s'.pendingRestarts ++ [s'.symbol] }, [])

/-- A parsed inbound client message as the handler destructures it,
server.ts lines 80-93, restricted to messages whose fields have the
declared types (a `subscribe` whose `symbol` is not a string is settled
separately in `onMessageOutputs`).  `ping` carries the heartbeat-drop draw
(line 82) and `Date.now()`; `otherType` is any object whose string `type`
is neither `ping` nor `subscribe`. -/
inductive InMsg where
  | subscribe (symbol : String) (intervalMs : JsValue)
  | ping (dropDraw : Bool) (now : ℤ)
  | otherType
deriving DecidableEq

/-- The `socket.on('message')` handler, server.ts lines 75-94, on a parsed
(or unparseable, `none`) frame: unparseable answers the format error
(line 78); `ping` answers `pong` unless the heartbeat-drop draw hits
(lines 80-86); `subscribe` normalizes the fields (lines 88-89) and runs the
synchronous part of `restartStream` (line 90); any other type falls through
with no reply and no state change. -/
def onMessageStep (s : ConnState) (m : Option InMsg) : ConnState × List Action :=
  match m with
  | none => (s, [.send (.errorMsg "Invalid message format")])
  | some (.ping dropDraw now) =>
      if dropDraw then (s, []) else (s, [.send (.pong now)])
  | some .otherType => (s, [])
  | some (.subscribe sym iv) =>
      restartStreamStart
        { s with symbol := jsToUpperCase (jsTrim sym),
                 intervalMs := clampNumber iv 700 10000 1000 }

/-- Resumption of a suspended `restartStream`, server.ts lines 114-116: the
awaited `getStockDetail` settles with `fetch`; `pushUpdate` performs its
send (lines 183-195, unconditional also when `closed`); then
`if (closed) return;` else the timer-arming part of `scheduleNext` runs.
`i` selects which pending restart resolves (fetch latencies are independent,
so they may settle out of order); an out-of-range `i` is no event. -/
def fetchDoneStep (s : ConnState) (i : ℕ) (fetch : Except JsError StockDetail) :
    ConnState × List Action :=
  match s.pendingRestarts[i]? with
  | none => (s, [])
  | some sym =>
      let s' := { s with pendingRestarts := s.pendingRestarts.eraseIdx i }
      let out := (pushUpdate sym fetch).map fun snd => Action.send
        (match snd.msg with | .intact m => m | .corrupted m _ => m)
      if s'.closed then (s', out) else (armUpdateTimer s', out)

/-- The update-timer callback, server.ts lines 134-149: runs only if the
timer `id` is still pending (a cleared timer never fires); the firing
consumes the timer; `if (closed) return;` (line 135); otherwise
`scheduleNext` immediately re-arms the next timer (line 136) and the push
attempt is spawned (its writes are `tickSends`, deferred work outside this
state). -/
def updateTimerFireStep (s : ConnState) (id : ℕ) : ConnState × List Action :=
  if id ∈ s.liveUpdateTimers then
    let s' := { s with liveUpdateTimers := s.liveUpdateTimers.erase id }
    if s'.closed then (s', []) else (armUpdateTimer s', [])
  else (s, [])

/-- The forced-disconnect timer callback, server.ts lines 155-160: runs only
if a disconnect timer is pending, consumes it, and — if
`ws.readyState === WebSocket.OPEN` at that moment — sends the `serverReset`
notice and closes with code 1012. -/
def disconnectFireStep (s : ConnState) (openAtFire : Bool) : ConnState × List Action :=
  if s.disconnectTimers = 0 then (s, [])
  else
    let s' := { s with disconnectTimers := s.disconnectTimers - 1 }
    if openAtFire then
      (s', [.send (.serverReset "Simulated restart"), .closeConn 1012 "Service restart"])
    else (s', [])

/-- The `socket.on('close')` and `socket.on('error')` handlers, server.ts
lines 96-106: set `closed`, `stopStream(subscription)`, `clearDisconnect()`. -/
def closeStep (s : ConnState) : ConnState :=
  let s' := stopStream { s with closed := true }
  { s' with disconnectTimers := 0 }

/-- An event delivered to one connection's callbacks. -/
inductive Event where
  | message (m : Option InMsg)
  | fetchDone (i : ℕ) (fetch : Except JsError StockDetail)
  | updateTimerFire (id : ℕ)
  | disconnectFire (openAtFire : Bool)
  | socketClose
  | socketError
deriving DecidableEq

/-- One step of the connection controller: dispatch an event to its handler. -/
def step (s : ConnState) (e : Event) : ConnState × List Action :=
  match e with
  | .message m => onMessageStep s m
  | .fetchDone i fetch => fetchDoneStep s i fetch
  | .updateTimerFire id => updateTimerFireStep s id
  | .disconnectFire openAtFire => disconnectFireStep s openAtFire
  | .socketClose => (closeStep s, [])
  | .socketError => (closeStep s, [])

/-- Run a list of events from a state, keeping only the final state. -/
def runEvents (s : ConnState) (es : List Event) : ConnState :=
  es.foldl (fun s e => (step s e).1) s

/-- Connection acceptance, server.ts lines 57-73, on an already-allowed
path: initial state from the query symbol (already trimmed and uppercased
by `parseWsRequest`, line 305; absent or empty becomes `''`, line 64),
`ready` sent (line 69), the forced-disconnect timer armed
(`scheduleDisconnect`, lines 70 and 152-161: `clearDisconnect()` then one
`setTimeout`), and — if an initial symbol is present — `restartStream`
started (lines 71-73). -/
def initConn (symbolFromQuery : Option String) : ConnState × List Action :=
  let s : ConnState :=
    { closed := false, symbol := symbolFromQuery.getD "",
      intervalMs := 1000, subTimer := none, liveUpdateTimers := [],
      pendingRestarts := [], disconnectTimers := 1, nextTimerId := 0 }
  let ready := Action.send (.ready "Connected to stock feed")
  if s.symbol = "" then (s, [ready])
  else
    let (s', acts) := restartStreamStart s
    (s', ready :: acts)

/-- The `wss.on('connection')` handler, server.ts lines 57-73: an invalid
path closes with code 1008 immediately — no ready message, no timers, no
state (line 59-62); an allowed path proceeds to `initConn`. -/
def onConnection (pathname : List Char) (symbolFromQuery : Option String) :
    Option ConnState × List Action :=
  if isAllowedPath pathname then
    let (s, acts) := initConn symbolFromQuery
    (some s, acts)
  else
    (none, [.closeConn 1008 "Invalid WebSocket path"])

/-- The outcome of `JSON.parse(raw.toString())` on an inbound frame, as far
as `parseMessage` (server.ts lines 276-286) inspects it: the parse threw, or
produced something that is not a truthy object, or produced an object, whose
fields `type`, `symbol` and `intervalMs` are read by property access
(`undef` when absent). -/
inductive ParseOutcome where
  | notJson
  | nonObject
  | obj (type : JsValue) (symbol : JsValue) (intervalMs : JsValue)
deriving DecidableEq

/-- The fields of the value `parseMessage` returns after the unchecked cast
`parsed as ClientMessage` (server.ts line 280): only `type` was validated to
be a string; `symbol` and `intervalMs` keep whatever JS values the client
sent. -/
structure ClientMessageCast where
  type : String
  symbol : JsValue
  intervalMs : JsValue
deriving DecidableEq

/-- `parseMessage`, server.ts lines 276-286: `undefined` unless the payload
parsed to an object with a string `type` field; no other field is checked. -/
def parseMessage (raw : ParseOutcome) : Option ClientMessageCast :=
  match raw with
  | .obj (.str t) sym iv => some ⟨t, sym, iv⟩
  | _ => none

/-- A synchronous JS exception escaping a handler. -/
inductive RuntimeErr where
  /-- `TypeError: message.symbol.trim is not a function` (or `.trim` of
  `undefined`), thrown at server.ts line 88 when `symbol` is not a string. -/
  | typeError
deriving DecidableEq

/-- `message.symbol.trim().toUpperCase()` as JS evaluates it, server.ts line
88: defined only when the field holds a string; any other value makes the
method lookup fail and the expression throw. -/
def jsTrimUpper : JsValue → Except RuntimeErr String
  | .str s => .ok (jsToUpperCase (jsTrim s))
  | _ => .error .typeError

/-- The replies (and possible uncaught exception) of the
`socket.on('message')` handler, server.ts lines 75-94, on one inbound frame:
unparseable → format error; `ping` → `pong` unless dropped; `subscribe` →
evaluate `message.symbol.trim().toUpperCase()` (which throws out of the
handler when `symbol` is not a string — there is no surrounding try/catch
and no process-level exception handler) and otherwise reply nothing here
(the restarted stream's sends are modelled by `restartStreamStart` /
`pushUpdate`); any other string `type` → no reply.  The `.catch` on line 90
only covers the promise returned by `restartStream`, not this synchronous
throw. -/
def onMessageOutputs (raw : ParseOutcome) (dropDraw : Bool) (now : ℤ) :
    Except RuntimeErr (List OutMsg) :=
  match parseMessage raw with
  | none => .ok [.errorMsg "Invalid message format"]
  | some m =>
      if m.type = "ping" then
        if dropDraw then .ok [] else .ok [.pong now]
      else if m.type = "subscribe" then
        match jsTrimUpper m.symbol with
        | .ok _ => .ok []
        | .error e => .error e
      else .ok []

/-! ## Helper lemmas -/

theorem stopStream_symbol (s : ConnState) : (stopStream s).symbol = s.symbol := by
  unfold stopStream; cases s.subTimer <;> rfl

theorem stopStream_intervalMs (s : ConnState) : (stopStream s).intervalMs = s.intervalMs := by
  unfold stopStream; cases s.subTimer <;> rfl

theorem stopStream_pendingRestarts (s : ConnState) :
    (stopStream s).pendingRestarts = s.pendingRestarts := by
  unfold stopStream; cases s.subTimer <;> rfl

theorem stopStream_nextTimerId (s : ConnState) : (stopStream s).nextTimerId = s.nextTimerId := by
  unfold stopStream; cases s.subTimer <;> rfl

theorem stopStream_disconnectTimers (s : ConnState) :
    (stopStream s).disconnectTimers = s.disconnectTimers := by
  unfold stopStream; cases s.subTimer <;> rfl

theorem stopStream_closed (s : ConnState) : (stopStream s).closed = s.closed := by
  unfold stopStream; cases s.subTimer <;> rfl

theorem stopStream_liveUpdateTimers_length (s : ConnState) :
    (stopStream s).liveUpdateTimers.length ≤ s.liveUpdateTimers.length := by
  unfold stopStream
  cases s.subTimer with
  | none => exact le_refl _
  | some t => exact (List.erase_sublist _ _).length_le

theorem restartStreamStart_symbol (s : ConnState) :
    (restartStreamStart s).1.symbol = s.symbol := by
  by_cases h : s.symbol = "" <;>
    simp [restartStreamStart, stopStream_symbol, h]

theorem restartStreamStart_intervalMs (s : ConnState) :
    (restartStreamStart s).1.intervalMs = s.intervalMs := by
  by_cases h : s.symbol = "" <;>
    simp [restartStreamStart, stopStream_symbol, stopStream_intervalMs, h]

theorem clampNumber_eq_clampSpec (v : JsValue) (lo hi fallback : ℚ) (h : lo ≤ hi) :
    clampNumber v lo hi fallback = clampSpec v lo hi fallback := by
  cases v with
  | num q =>
      simp only [clampNumber, clampSpec]
      rcases lt_or_le q lo with hq | hq
      · rw [max_eq_right hq.le, min_eq_left h, if_pos hq]
      · rw [max_eq_left hq, if_neg (not_lt.mpr hq)]
        rcases lt_or_le hi q with hq2 | hq2
        · rw [min_eq_right hq2.le, if_pos hq2]
        · rw [min_eq_left hq2, if_neg (not_lt.mpr hq2)]
  | nanVal => rfl
  | infVal => rfl
  | str s => rfl
  | undef => rfl
  | otherVal => rfl

/-! ## Claim theorems -/

/-- Claim C4: a `subscribe` message replaces the connection's symbol by the
message's symbol trimmed and uppercased, and the interval by the message's
`intervalMs` clamped to [700, 10000] when it is a finite number and by 1000
otherwise; in particular symbol `" msft "` with `intervalMs` 50 yields
symbol `"MSFT"` and interval 700. -/
theorem subscribe_normalizes_fields (s : ConnState) (sym : String) (iv : JsValue) :
    ((onMessageStep s (some (.subscribe sym iv))).1.symbol = jsToUpperCase (jsTrim sym)
      ∧ (onMessageStep s (some (.subscribe sym iv))).1.intervalMs = clampSpec iv 700 10000 1000)
    ∧ ((onMessageStep s (some (.subscribe " msft " (.num 50)))).1.symbol = "MSFT"
      ∧ (onMessageStep s (some (.subscribe " msft " (.num 50)))).1.intervalMs = 700) := by
  have key : ∀ (sym' : String) (iv' : JsValue),
      (onMessageStep s (some (.subscribe sym' iv'))).1.symbol = jsToUpperCase (jsTrim sym')
      ∧ (onMessageStep s (some (.subscribe sym' iv'))).1.intervalMs
          = clampSpec iv' 700 10000 1000 := by
    intro sym' iv'
    constructor
    · show (restartStreamStart _).1.symbol = _
      rw [restartStreamStart_symbol]
    · show (restartStreamStart _).1.intervalMs = _
      rw [restartStreamStart_intervalMs]
      exact clampNumber_eq_clampSpec iv' 700 10000 1000 (by norm_num)
  refine ⟨key sym iv, ?_, ?_⟩
  · rw [(key " msft " (.num 50)).1]; decide
  · rw [(key " msft " (.num 50)).2]; norm_num [clampSpec]

/-- Claim C5: a `subscribe` whose symbol trims to the empty string is
answered with exactly the error `"Symbol is required for subscription"` and
starts no update cycle: no timer id is allocated, the pending update timers
do not grow, and no fetch is started (so no quote can result from it). -/
theorem subscribe_empty_symbol (s : ConnState) (sym : String) (iv : JsValue)
    (h : jsTrim sym = "") :
    (onMessageStep s (some (.subscribe sym iv))).2
      = [.send (.errorMsg "Symbol is required for subscription")]
    ∧ (onMessageStep s (some (.subscribe sym iv))).1.pendingRestarts = s.pendingRestarts
    ∧ (onMessageStep s (some (.subscribe sym iv))).1.nextTimerId = s.nextTimerId
    ∧ (onMessageStep s (some (.subscribe sym iv))).1.liveUpdateTimers.length
        ≤ s.liveUpdateTimers.length := by
  have hup : jsToUpperCase (jsTrim sym) = "" := by rw [h]; rfl
  have hms : onMessageStep s (some (.subscribe sym iv))
      = (stopStream { s with symbol := jsToUpperCase (jsTrim sym),
                             intervalMs := clampNumber iv 700 10000 1000 },
         [.send (.errorMsg "Symbol is required for subscription")]) := by
    show restartStreamStart _ = _
    simp [restartStreamStart, stopStream_symbol, hup]
  rw [hms]
  refine ⟨rfl, ?_, ?_, ?_⟩
  · rw [stopStream_pendingRestarts]
  · rw [stopStream_nextTimerId]
  · exact stopStream_liveUpdateTimers_length _

/-- Witness for C5 at the concrete subscribe message with symbol `" "`. -/
theorem subscribe_empty_symbol_witness :
    jsTrim " " = ""
    ∧ (onMessageStep (initConn none).1 (some (.subscribe " " .undef))).2
        = [.send (.errorMsg "Symbol is required for subscription")] :=
  ⟨by decide, (subscribe_empty_symbol (initConn none).1 " " .undef (by decide)).1⟩

/-- Claim C3 (code bug): the claim says inbound handling never raises an
uncaught exception, in particular a `subscribe` whose `symbol` field is not
a string.  The code refutes this: `parseMessage` validates only the `type`
field before the unchecked cast, so `{type: "subscribe", symbol: 42}`
reaches `message.symbol.trim()` (server.ts line 88), which throws an
uncaught TypeError — there is no try/catch around the handler and no
process-level exception handler.  The second half of the claim does hold:
`handleError` converts a Data Source failure into an error message carrying
the failure's status code, or 500 if it has none. -/
theorem subscribe_nonstring_symbol_throws :
    onMessageOutputs (.obj (.str "subscribe") (.num 42) .undef) false 0 = .error .typeError
    ∧ onMessageOutputs (.obj (.str "subscribe") .undef .undef) false 0 = .error .typeError
    ∧ handleError (.httpError 404 "Stock not found") = .errorStatus 404 "Stock not found"
    ∧ handleError .otherErr
        = .errorStatus 500 "Unexpected error while fetching stock detail" := by
  refine ⟨rfl, rfl, rfl, rfl⟩

/-- Claim C10: an inbound message that parses to an object with a string
`type` that is neither `"subscribe"` nor `"ping"` gets no reply at all and
leaves the connection state (symbol, interval, timers) unchanged — the
handler at server.ts lines 75-94 simply falls through. -/
theorem unknown_type_no_reply (t : String) (sym iv : JsValue) (dropDraw : Bool)
    (now : ℤ) (s : ConnState) (h1 : t ≠ "ping") (h2 : t ≠ "subscribe") :
    onMessageOutputs (.obj (.str t) sym iv) dropDraw now = .ok []
    ∧ onMessageStep s (some .otherType) = (s, []) := by
  constructor
  · simp [onMessageOutputs, parseMessage, h1, h2]
  · rfl

/-- Witness for C10 at the concrete type `"unsubscribe"`. -/
theorem unknown_type_no_reply_witness :
    onMessageOutputs (.obj (.str "unsubscribe") .undef .undef) false 0 = .ok [] :=
  (unknown_type_no_reply "unsubscribe" .undef .undef false 0 (initConn none).1
    (by decide) (by decide)).1

/-- Claim C8: the immediate push performed by `restartStream` (on
connect-with-symbol or on a subscribe) goes through `pushUpdate`, which
consumes no chaos draws at all: on fetch success it performs exactly one
write, intact (no corruption tag) and with zero deferral.  A scheduled push
goes through `pushUpdateWithChaos` instead, which does transform the
payload — witnessed here by a corruption draw producing a corrupted write
for the same fetched detail. -/
theorem immediate_push_no_chaos (symbol : String) (d : StockDetail) :
    pushUpdate symbol (.ok d) = [⟨0, .intact (.quote symbol d.price d.updatedAt)⟩]
    ∧ pushUpdateWithChaos symbol ⟨.ok d, ⟨false, 0, true, 0, false, 0⟩, true⟩
        = [⟨0, .corrupted (.quote symbol d.price d.updatedAt) 0⟩] := by
  exact ⟨rfl, rfl⟩

/-- Counterexample to claim C1: the claim requires that every outbound
write originating from a scheduled push — explicitly including the error
message emitted when the fetch fails — be immediately preceded by an
open-connection check, with no send after close.  `handleError` (server.ts
lines 269-274) performs `ws.send` unconditionally: with the connection no
longer open (`openAtDeliver = false`, as after `closed` became true), a
failed fetch still produces a write. -/
theorem error_send_after_close :
    pushUpdateWithChaos "AAPL" ⟨.error .otherErr, ⟨false, 0, false, 0, false, 0⟩, false⟩
      ≠ [] := by
  decide

/-- Claim C1 as amended: every scheduled QUOTE write is guarded — if the
connection is not open at the moment of delivery (also after an
out-of-order delay; the duplication loop is covered since it is guarded as
a whole), no quote write occurs, and a burst member whose callback sees
`closed` performs nothing at all; the fetch-failure error message, however,
is written without any check, regardless of the connection being open. -/
theorem scheduled_quote_writes_guarded (symbol : String) (ctx : DeliverCtx)
    (h : ctx.openAtDeliver = false) :
    (∀ d : StockDetail, ctx.fetch = .ok d → pushUpdateWithChaos symbol ctx = [])
    ∧ (∀ e : JsError, ctx.fetch = .error e →
        pushUpdateWithChaos symbol ctx = [⟨0, .intact (handleError e)⟩])
    ∧ (∀ ctx2 : DeliverCtx, burstMemberSends symbol true ctx2 = []) := by
  refine ⟨?_, ?_, ?_⟩
  · intro d hd; simp [pushUpdateWithChaos, hd, h]
  · intro e he; simp [pushUpdateWithChaos, he]
  · intro ctx2; rfl

/-- Witness for the amended C1 at a concrete closed-at-delivery context. -/
theorem scheduled_quote_writes_guarded_witness :
    pushUpdateWithChaos "AAPL" ⟨.ok ⟨100, 0⟩, ⟨false, 0, false, 0, false, 0⟩, false⟩ = [] :=
  (scheduled_quote_writes_guarded "AAPL"
    ⟨.ok ⟨100, 0⟩, ⟨false, 0, false, 0, false, 0⟩, false⟩ rfl).1 ⟨100, 0⟩ rfl

/-- Claim C7: the delay until the next scheduled push is the effective base
interval (75 ms while spike mode is active after the update, else the
connection's interval) times the jitter draw, rounded, clamped to
[400, 10000]; the jitter drawn as `randBetween(0.9, 1.1)` from
`r ∈ [0, 1)` lies in [0.9, 1.1], and for EVERY base and jitter value the
resulting delay lies in [400, 10000]. -/
theorem next_delay_formula_and_bounds (cs : SpikeState) (intervalMs : ℚ) (now : ℤ)
    (spikeDraw : Bool) (r : ℚ) (h0 : 0 ≤ r) (h1 : r < 1) :
    ((9 : ℚ)/10 ≤ randBetween r (9/10) (11/10) ∧ randBetween r (9/10) (11/10) ≤ 11/10)
    ∧ (∀ jitter : ℚ,
        nextDelay cs intervalMs now spikeDraw jitter
          = min 10000 (max 400 (round
              ((if (updateSpike cs now spikeDraw).inSpikeMode then (75 : ℚ) else intervalMs)
                * jitter)))
        ∧ 400 ≤ nextDelay cs intervalMs now spikeDraw jitter
        ∧ nextDelay cs intervalMs now spikeDraw jitter ≤ 10000) := by
  constructor
  · unfold randBetween
    constructor <;> nlinarith
  · intro jitter
    refine ⟨rfl, ?_, ?_⟩
    · exact le_min (by norm_num) (le_max_left _ _)
    · exact min_le_left _ _

/-- Witness for C7 at the concrete draw `r = 1/2`. -/
theorem next_delay_formula_and_bounds_witness :
    400 ≤ nextDelay ⟨false, 0⟩ 1000 0 false (randBetween (1/2) (9/10) (11/10)) :=
  ((next_delay_formula_and_bounds ⟨false, 0⟩ 1000 0 false (1/2)
    (by norm_num) (by norm_num)).2 (randBetween (1/2) (9/10) (11/10))).2.1

theorem concat_inj_iff (l m : List Char) (a b : Char) :
    l ++ [a] = m ++ [b] ↔ l = m ∧ a = b := by
  constructor
  · intro h
    have h2 := List.append_inj' h rfl
    exact ⟨h2.1, by simpa using h2.2⟩
  · rintro ⟨rfl, rfl⟩; rfl

theorem isAllowedPath_iff (p : List Char) : isAllowedPath p = true ↔ allowedPathSpec p := by
  rcases List.eq_nil_or_concat p with hnil | ⟨l, a, hc⟩
  · subst hnil; decide
  · have hp : p = l ++ [a] := by simpa [List.concat_eq_append] using hc
    subst hp
    by_cases ha : a = '/'
    · subst ha
      by_cases hl : l = []
      · subst hl; decide
      · have hne : (l ++ ['/']) ≠ ['/'] := by
          intro hEq
          have h2 : l = [] ∧ ('/' : Char) = '/' :=
            (concat_inj_iff l [] '/' '/').mp (by simpa using hEq)
          exact hl h2.1
        simp only [isAllowedPath, allowedPathSpec, List.getLast?_concat, beq_self_eq_true,
          Bool.true_and, ne_eq, hne, not_false_eq_true, bne_iff_ne, if_true,
          List.dropLast_concat, Bool.or_eq_true, beq_iff_eq]
        constructor
        · rintro (rfl | rfl)
          · exact Or.inr (Or.inl (by decide))
          · exact Or.inr (Or.inr (Or.inr (by decide)))
        · rintro (h | h | h | h)
          · exact absurd ((concat_inj_iff l ['/', 'w'] '/' 's').mp h).2 (by decide)
          · exact Or.inl ((concat_inj_iff l ['/', 'w', 's'] '/' '/').mp h).1
          · exact absurd
              ((concat_inj_iff l ['/', 'w', 's', '/', 'q', 'u', 'o', 't', 'e'] '/' 's').mp h).2
              (by decide)
          · exact Or.inr
              ((concat_inj_iff l ['/', 'w', 's', '/', 'q', 'u', 'o', 't', 'e', 's'] '/' '/').mp h).1
    · have hcond : ((l ++ [a]).getLast? == some '/') = false := by
        simp [List.getLast?_concat, ha]
      simp only [isAllowedPath, allowedPathSpec, hcond, Bool.false_and, Bool.false_eq_true,
        if_false, Bool.or_eq_true, beq_iff_eq]
      constructor
      · rintro (h | h)
        · exact Or.inl h
        · exact Or.inr (Or.inr (Or.inl h))
      · rintro (h | h | h | h)
        · exact Or.inl h
        · exact absurd ((concat_inj_iff l ['/', 'w', 's'] a '/').mp h).2 ha
        · exact Or.inr h
        · exact absurd
            ((concat_inj_iff l ['/', 'w', 's', '/', 'q', 'u', 'o', 't', 'e', 's'] a '/').mp h).2 ha

/-- Claim C6: a connection is accepted iff its pathname, after removal of at
most one trailing slash, equals `/ws` or `/ws/quotes`; every other path is
closed immediately with code 1008 and nothing else happens (no ready
message, no timers, no connection state). -/
theorem path_allowlist (p : List Char) (q : Option String) :
    (isAllowedPath p = true ↔ allowedPathSpec p)
    ∧ ((onConnection p q).1.isSome ↔ allowedPathSpec p)
    ∧ (¬allowedPathSpec p →
        (onConnection p q).2 = [.closeConn 1008 "Invalid WebSocket path"]) := by
  have hiff := isAllowedPath_iff p
  by_cases hA : isAllowedPath p
  · refine ⟨hiff, ?_, ?_⟩
    · simp [onConnection, hA, hiff.mp hA]
    · intro hno; exact absurd (hiff.mp hA) hno
  · have hA' : isAllowedPath p = false := by simpa using hA
    have hspec : ¬allowedPathSpec p := fun hs => hA (hiff.mpr hs)
    refine ⟨hiff, ?_, ?_⟩
    · simp [onConnection, hA', hspec]
    · intro _; simp [onConnection, hA']

/-- Witness for C6 at the rejected concrete path `/bad`. -/
theorem path_allowlist_witness :
    (onConnection "/bad".data none).2 = [.closeConn 1008 "Invalid WebSocket path"] :=
  (path_allowlist "/bad".data none).2.2 (by decide)

/-! ## Timer-ownership invariant (claims C2 and C9) -/

/-- Events whose handler runs the `subscribe` branch of the message handler. -/
def isSubscribeEvent : Event → Bool
  | .message (some (.subscribe _ _)) => true
  | _ => false

/-- A trace discipline: every `subscribe` message is handled at an instant
at which no `restartStream` is suspended at its fetch (no overlapping
restarts).  This holds in particular whenever the Data Source resolves
before the next inbound message is processed. -/
def NoOverlap : ConnState → List Event → Prop
  | _, [] => True
  | s, e :: es =>
      (isSubscribeEvent e = true → s.pendingRestarts = []) ∧ NoOverlap (step s e).1 es

instance instNoOverlapDecidable : (es : List Event) → (s : ConnState) →
    Decidable (NoOverlap s es)
  | [], _ => isTrue trivial
  | e :: es, s =>
      have : Decidable (NoOverlap (step s e).1 es) := instNoOverlapDecidable es (step s e).1
      inferInstanceAs (Decidable (_ ∧ _))

/-- The timer-ownership invariant: every pending update timer is the one the
subscription handle names (hence there is at most one); while a restart is
suspended at its fetch no update timer is pending; at most one restart is
suspended; at most one disconnect timer is pending. -/
def TimersInv (s : ConnState) : Prop :=
  (s.liveUpdateTimers = [] ∨ ∃ t, s.liveUpdateTimers = [t] ∧ s.subTimer = some t)
  ∧ (s.pendingRestarts ≠ [] → s.liveUpdateTimers = [])
  ∧ s.pendingRestarts.length ≤ 1
  ∧ s.disconnectTimers ≤ 1

theorem stopStream_live_nil (s : ConnState)
    (h : s.liveUpdateTimers = [] ∨ ∃ t, s.liveUpdateTimers = [t] ∧ s.subTimer = some t) :
    (stopStream s).liveUpdateTimers = [] := by
  unfold stopStream
  rcases h with h | ⟨t, hl, hs⟩
  · cases hst : s.subTimer <;> simp [hst, h]
  · rw [hs]; simp [hl]

theorem timersInv_restartStreamStart (s : ConnState) (hInv : TimersInv s)
    (hpend : s.pendingRestarts = []) : TimersInv (restartStreamStart s).1 := by
  obtain ⟨h1, -, -, h4⟩ := hInv
  have hstop := stopStream_live_nil s h1
  by_cases hsym : s.symbol = ""
  · have : (restartStreamStart s).1 = stopStream s := by
      simp [restartStreamStart, stopStream_symbol, hsym]
    rw [this]
    refine ⟨Or.inl hstop, fun _ => hstop, ?_, ?_⟩
    · rw [stopStream_pendingRestarts, hpend]; simp
    · rw [stopStream_disconnectTimers]; exact h4
  · have : (restartStreamStart s).1
        = { stopStream s with
            pendingRestarts := (stopStream s).pendingRestarts ++ [(stopStream s).symbol] } := by
      simp [restartStreamStart, stopStream_symbol, hsym]
    rw [this]
    refine ⟨Or.inl hstop, fun _ => hstop, ?_, ?_⟩
    · show ((stopStream s).pendingRestarts ++ _).length ≤ 1
      rw [stopStream_pendingRestarts, hpend]; simp
    · show (stopStream s).disconnectTimers ≤ 1
      rw [stopStream_disconnectTimers]; exact h4

theorem timersInv_step (s : ConnState) (e : Event) (hInv : TimersInv s)
    (hsub : isSubscribeEvent e = true → s.pendingRestarts = []) :
    TimersInv (step s e).1 := by
  obtain ⟨h1, h2, h3, h4⟩ := hInv
  cases e with
  | message m =>
      cases m with
      | none => exact ⟨h1, h2, h3, h4⟩
      | some msg =>
          cases msg with
          | ping dropDraw now => cases dropDraw <;> exact ⟨h1, h2, h3, h4⟩
          | otherType => exact ⟨h1, h2, h3, h4⟩
          | subscribe sym iv =>
              exact timersInv_restartStreamStart
                { s with symbol := jsToUpperCase (jsTrim sym),
                         intervalMs := clampNumber iv 700 10000 1000 }
                ⟨h1, h2, h3, h4⟩ (hsub rfl)
  | fetchDone i fetch =>
      show TimersInv (fetchDoneStep s i fetch).1
      cases hg : s.pendingRestarts[i]? with
      | none =>
          have : (fetchDoneStep s i fetch).1 = s := by
            simp [fetchDoneStep, hg]
          rw [this]
          exact ⟨h1, h2, h3, h4⟩
      | some sym =>
          have hpend_ne : s.pendingRestarts ≠ [] := by
            intro h0; rw [h0] at hg; simp at hg
          have hlive : s.liveUpdateTimers = [] := h2 hpend_ne
          have hilt : i < s.pendingRestarts.length := by
            by_contra hge
            rw [List.getElem?_eq_none (by omega)] at hg
            exact Option.noConfusion hg
          have hlen : s.pendingRestarts.length = 1 := by omega
          have hi : i = 0 := by omega
          obtain ⟨x, hx⟩ := List.length_eq_one.mp hlen
          have herase : s.pendingRestarts.eraseIdx i = [] := by
            rw [hx, hi]; rfl
          cases hc : s.closed with
          | true =>
              have : (fetchDoneStep s i fetch).1
                  = { s with pendingRestarts := s.pendingRestarts.eraseIdx i } := by
                simp [fetchDoneStep, hg, hc]
              rw [this]
              exact ⟨Or.inl hlive, fun _ => hlive, by rw [herase]; simp, h4⟩
          | false =>
              have : (fetchDoneStep s i fetch).1
                  = armUpdateTimer { s with pendingRestarts := s.pendingRestarts.eraseIdx i } := by
                simp [fetchDoneStep, hg, hc]
              rw [this]
              refine ⟨Or.inr ⟨s.nextTimerId, ?_, rfl⟩, ?_,
                by show (s.pendingRestarts.eraseIdx i).length ≤ 1; rw [herase]; decide, h4⟩
              · show s.liveUpdateTimers ++ [s.nextTimerId] = [s.nextTimerId]
                rw [hlive]; rfl
              · intro hne
                exact absurd herase hne
  | updateTimerFire id =>
      show TimersInv (updateTimerFireStep s id).1
      by_cases hmem : id ∈ s.liveUpdateTimers
      · obtain ⟨t, hl, hs⟩ : ∃ t, s.liveUpdateTimers = [t] ∧ s.subTimer = some t := by
          rcases h1 with h1 | h1
          · rw [h1] at hmem; simp at hmem
          · exact h1
        have hid : id = t := by rw [hl] at hmem; simpa using hmem
        have hpend : s.pendingRestarts = [] := by
          by_contra hne
          rw [h2 hne] at hl
          simp at hl
        have herase : s.liveUpdateTimers.erase id = [] := by
          rw [hl, hid]; simp
        cases hc : s.closed with
        | true =>
            have : (updateTimerFireStep s id).1
                = { s with liveUpdateTimers := s.liveUpdateTimers.erase id } := by
              simp [updateTimerFireStep, hmem, hc]
            rw [this]
            exact ⟨Or.inl herase, fun _ => herase, h3, h4⟩
        | false =>
            have : (updateTimerFireStep s id).1
                = armUpdateTimer { s with liveUpdateTimers := s.liveUpdateTimers.erase id } := by
              simp [updateTimerFireStep, hmem, hc]
            rw [this]
            refine ⟨Or.inr ⟨s.nextTimerId, ?_, rfl⟩, ?_, h3, h4⟩
            · show s.liveUpdateTimers.erase id ++ [s.nextTimerId] = [s.nextTimerId]
              rw [herase]; rfl
            · intro hne
              exact absurd hpend hne
      · simpa [updateTimerFireStep, hmem] using ⟨h1, h2, h3, h4⟩
  | disconnectFire openAtFire =>
      show TimersInv (disconnectFireStep s openAtFire).1
      by_cases hz : s.disconnectTimers = 0
      · have : (disconnectFireStep s openAtFire).1 = s := by
          simp [disconnectFireStep, hz]
        rw [this]
        exact ⟨h1, h2, h3, h4⟩
      · have : (disconnectFireStep s openAtFire).1
            = { s with disconnectTimers := s.disconnectTimers - 1 } := by
          cases openAtFire <;> simp [disconnectFireStep, hz]
        rw [this]
        exact ⟨h1, h2, h3, by show s.disconnectTimers - 1 ≤ 1; omega⟩
  | socketClose =>
      show TimersInv (closeStep s)
      have hstop := stopStream_live_nil { s with closed := true } h1
      refine ⟨Or.inl hstop, fun _ => hstop, ?_, Nat.zero_le 1⟩
      show (stopStream { s with closed := true }).pendingRestarts.length ≤ 1
      rw [stopStream_pendingRestarts]
      exact h3
  | socketError =>
      show TimersInv (closeStep s)
      have hstop := stopStream_live_nil { s with closed := true } h1
      refine ⟨Or.inl hstop, fun _ => hstop, ?_, Nat.zero_le 1⟩
      show (stopStream { s with closed := true }).pendingRestarts.length ≤ 1
      rw [stopStream_pendingRestarts]
      exact h3

theorem timersInv_initConn (q : Option String) : TimersInv (initConn q).1 := by
  unfold initConn
  by_cases hq : q.getD "" = ""
  · simp only [hq, if_pos rfl]
    exact ⟨Or.inl rfl, fun _ => rfl, by simp, by norm_num⟩
  · simp only [hq, if_neg hq]
    exact timersInv_restartStreamStart _ ⟨Or.inl rfl, fun _ => rfl, by simp, by norm_num⟩ rfl

theorem timersInv_runEvents (s : ConnState) (es : List Event) (hInv : TimersInv s)
    (hno : NoOverlap s es) : TimersInv (runEvents s es) := by
  induction es generalizing s with
  | nil => exact hInv
  | cons e es ih =>
      obtain ⟨hhead, htail⟩ := hno
      exact ih (step s e).1 (timersInv_step s e hInv hhead) htail

/-- The interleaving that violates claim C2: two `subscribe` messages are
handled while the first restart's fetch is still in flight (reachable
whenever the Data Source latency spans two inbound messages); both fetches
then resolve, each arming an update timer — the second `scheduleNext`
overwrites `sub.timer`, orphaning the first armed timer. -/
def overlappingSubscribes : List Event :=
  [.message (some (.subscribe "AAPL" (.num 1000))),
   .message (some (.subscribe "MSFT" (.num 1000))),
   .fetchDone 0 (.ok ⟨100, 0⟩),
   .fetchDone 0 (.ok ⟨100, 0⟩)]

/-- Counterexample to claim C2: after the `overlappingSubscribes`
interleaving — subscribe, subscribe, fetch completes, fetch completes — the
connection has TWO pending update timers, refuting "at most one pending
update timer ... for every reachable interleaving of subscribe messages,
timer firings, and fetch completions". -/
theorem two_update_timers_reachable :
    (runEvents (initConn none).1 overlappingSubscribes).liveUpdateTimers.length = 2
    ∧ ¬((runEvents (initConn none).1 overlappingSubscribes).liveUpdateTimers.length ≤ 1) := by
  exact ⟨by decide, by decide⟩

/-! ## Forced disconnect (claim C9) -/

/-- The forced-disconnect delay, server.ts lines 51-52 and 154:
`Math.round(randBetween(45_000, 120_000))`, with the `Math.random()` draw
`r ∈ [0, 1)` explicit. -/
def disconnectDelayMs (r : ℚ) : ℤ :=
  round (randBetween r 45000 120000)

theorem restartStreamStart_disconnectTimers (s : ConnState) :
    (restartStreamStart s).1.disconnectTimers = s.disconnectTimers := by
  by_cases h : s.symbol = "" <;>
    simp [restartStreamStart, stopStream_symbol, stopStream_disconnectTimers, h]

/-- No event handler ever arms a new disconnect timer: only connection
acceptance does (`scheduleDisconnect` is called only at server.ts line 70). -/
theorem step_disconnectTimers_le (s : ConnState) (e : Event) :
    (step s e).1.disconnectTimers ≤ s.disconnectTimers := by
  cases e with
  | message m =>
      cases m with
      | none => exact le_refl _
      | some msg =>
          cases msg with
          | ping dropDraw now => cases dropDraw <;> exact le_refl _
          | otherType => exact le_refl _
          | subscribe sym iv =>
              show (restartStreamStart _).1.disconnectTimers ≤ _
              rw [restartStreamStart_disconnectTimers]
  | fetchDone i fetch =>
      show (fetchDoneStep s i fetch).1.disconnectTimers ≤ _
      cases hg : s.pendingRestarts[i]? with
      | none =>
          have : (fetchDoneStep s i fetch).1 = s := by simp [fetchDoneStep, hg]
          rw [this]
      | some sym =>
          have : (fetchDoneStep s i fetch).1.disconnectTimers = s.disconnectTimers := by
            cases hc : s.closed <;> simp [fetchDoneStep, hg, hc, armUpdateTimer]
          rw [this]
  | updateTimerFire id =>
      show (updateTimerFireStep s id).1.disconnectTimers ≤ _
      by_cases hmem : id ∈ s.liveUpdateTimers
      · have : (updateTimerFireStep s id).1.disconnectTimers = s.disconnectTimers := by
          cases hc : s.closed <;> simp [updateTimerFireStep, hmem, hc, armUpdateTimer]
        rw [this]
      · have : (updateTimerFireStep s id).1 = s := by simp [updateTimerFireStep, hmem]
        rw [this]
  | disconnectFire openAtFire =>
      show (disconnectFireStep s openAtFire).1.disconnectTimers ≤ _
      by_cases hz : s.disconnectTimers = 0
      · have : (disconnectFireStep s openAtFire).1 = s := by simp [disconnectFireStep, hz]
        rw [this]
      · have : (disconnectFireStep s openAtFire).1.disconnectTimers
            = s.disconnectTimers - 1 := by
          cases openAtFire <;> simp [disconnectFireStep, hz]
        rw [this]
        omega
  | socketClose => exact Nat.zero_le _
  | socketError => exact Nat.zero_le _

/-- No event handler ever arms a disconnect timer, so its count never grows
along any trace. -/
theorem runEvents_disconnectTimers_le (s : ConnState) (es : List Event) :
    (runEvents s es).disconnectTimers ≤ s.disconnectTimers := by
  induction es generalizing s with
  | nil => exact le_refl _
  | cons e es ih => exact le_trans (ih (step s e).1) (step_disconnectTimers_le s e)

/-- Claim C2 as amended: at most one disconnect timer is pending at any
instant of EVERY interleaving (unconditionally — also along the
overlapping-subscribe traces of the counterexample); and provided no
`subscribe` message is handled while an earlier restart's fetch is still in
flight (`NoOverlap`), at most one update timer is pending at any instant. -/
theorem timers_at_most_one (q : Option String) (es : List Event) :
    (runEvents (initConn q).1 es).disconnectTimers ≤ 1
    ∧ (NoOverlap (initConn q).1 es →
        (runEvents (initConn q).1 es).liveUpdateTimers.length ≤ 1) := by
  constructor
  · exact le_trans (runEvents_disconnectTimers_le _ es) (timersInv_initConn q).2.2.2
  · intro h
    obtain ⟨h1, -, -, -⟩ := timersInv_runEvents _ es (timersInv_initConn q) h
    rcases h1 with h1 | ⟨t, h1, -⟩ <;> simp [h1]

/-- Witness for the amended C2, discharging the `NoOverlap` proviso on a
concrete non-overlapping trace. -/
theorem timers_at_most_one_witness :
    (runEvents (initConn none).1
        [.message (some (.subscribe "AAPL" (.num 1000))),
         .fetchDone 0 (.ok ⟨100, 0⟩), .updateTimerFire 0]).disconnectTimers ≤ 1
    ∧ (runEvents (initConn none).1
        [.message (some (.subscribe "AAPL" (.num 1000))),
         .fetchDone 0 (.ok ⟨100, 0⟩), .updateTimerFire 0]).liveUpdateTimers.length ≤ 1 :=
  ⟨(timers_at_most_one none
      [.message (some (.subscribe "AAPL" (.num 1000))),
       .fetchDone 0 (.ok ⟨100, 0⟩), .updateTimerFire 0]).1,
   (timers_at_most_one none
      [.message (some (.subscribe "AAPL" (.num 1000))),
       .fetchDone 0 (.ok ⟨100, 0⟩), .updateTimerFire 0]).2 (by decide)⟩

/-- Claim C9: exactly one forced close is scheduled on accept, at a delay
`round(randBetween(45000, 120000))` that lies in [45000, 120000] ms for
every draw `r ∈ [0, 1)`; no event ever arms another one; when it fires
while the connection is still open it sends the `serverReset` notice and
closes with code 1012, consuming the timer; a fire on a no-longer-open
connection sends nothing; close/error cancels the timer. -/
theorem forced_disconnect_once (r : ℚ) (h0 : 0 ≤ r) (h1 : r < 1) (q : Option String)
    (s : ConnState) (e : Event) :
    (45000 ≤ disconnectDelayMs r ∧ disconnectDelayMs r ≤ 120000)
    ∧ (initConn q).1.disconnectTimers = 1
    ∧ (step s e).1.disconnectTimers ≤ s.disconnectTimers
    ∧ (0 < s.disconnectTimers →
        (disconnectFireStep s true).2
          = [.send (.serverReset "Simulated restart"), .closeConn 1012 "Service restart"]
        ∧ (disconnectFireStep s true).1.disconnectTimers = s.disconnectTimers - 1)
    ∧ (disconnectFireStep s false).2 = []
    ∧ (closeStep s).disconnectTimers = 0 := by
  refine ⟨⟨?_, ?_⟩, ?_, step_disconnectTimers_le s e, ?_, ?_, rfl⟩
  · unfold disconnectDelayMs randBetween
    rw [round_eq]
    rw [Int.le_floor]
    push_cast
    linarith
  · unfold disconnectDelayMs randBetween
    rw [round_eq]
    have : (r * (120000 - 45000) + 45000) + 1/2 < (120001 : ℚ) := by linarith
    have hf := Int.floor_lt.mpr (by push_cast; linarith :
      (r * (120000 - 45000) + 45000) + 1/2 < ((120001 : ℤ) : ℚ))
    omega
  · unfold initConn
    by_cases hq : q.getD "" = ""
    · simp [hq]
    · rw [if_neg hq, restartStreamStart_disconnectTimers]
  · intro hpos
    have hz : ¬s.disconnectTimers = 0 := by omega
    constructor
    · simp [disconnectFireStep, hz]
    · simp [disconnectFireStep, hz]
  · by_cases hz : s.disconnectTimers = 0 <;> simp [disconnectFireStep, hz]

/-- Witness for C9 at the concrete draw `r = 1/2` and the post-accept state. -/
theorem forced_disconnect_once_witness :
    (45000 ≤ disconnectDelayMs (1/2) ∧ disconnectDelayMs (1/2) ≤ 120000)
    ∧ (disconnectFireStep (initConn none).1 true).2
        = [.send (.serverReset "Simulated restart"), .closeConn 1012 "Service restart"] :=
  ⟨(forced_disconnect_once (1/2) (by norm_num) (by norm_num) none (initConn none).1
      .socketClose).1,
   ((forced_disconnect_once (1/2) (by norm_num) (by norm_num) none (initConn none).1
      .socketClose).2.2.2.1 (by decide)).1⟩

end StockApp
